import Mathlib

/-!
Shallow embedding of the slot-search and scheduling core of the repository
(calendar_manager.py, intelligent_scheduler.py, agent.py).

Conventions.  Instants are whole minutes since the epoch
1970-01-01 00:00 UTC (day 0 is a Thursday, so Python's Monday-based
weekday of wall day `d` is `(d + 3) % 7`).  A Python aware `datetime` is
modelled by the structure `DT`: the UTC instant together with the fixed
UTC offset, in minutes, of its `tzinfo`; `astimezone` keeps the instant
and swaps the offset, and all wall-clock fields (`hour`, `minute`,
`weekday`, the calendar date) are read off `utc + off`.  Calendar dates
are identified with their wall day number, so the `YYYY-MM-DD` strings
the source compares become `Int` day numbers.  Busy intervals are pairs
of UTC instants; their fetch from the external calendar is a parameter
`fetch : Int → Int → List (Int × Int)` standing for
`get_busy_times(range_start, range_end)`.  Python while-loops become
fuel-indexed recursion; every loop iteration advances the cursor by at
least 30 minutes, so the fuel `(range length / 30) + 2` always suffices
for the loop to exit on its own condition.
-/

/-- An aware Python datetime: UTC instant (minutes) plus fixed zone offset
(minutes).  Aware datetimes compare by instant, i.e. by `utc`. -/
structure DT where
  utc : Int
  off : Int
deriving DecidableEq

/-- Wall-clock minutes of the datetime in its own zone. -/
def DT.wall (d : DT) : Int := d.utc + d.off

/-- `d + timedelta(minutes := m)` on an aware datetime. -/
def DT.addMin (d : DT) (m : Int) : DT := ⟨d.utc + m, d.off⟩

/-- The wall calendar day number (`d.date()` as days since the epoch). -/
def DT.day (d : DT) : Int := d.wall / 1440

/-- Minutes past local midnight, in `[0, 1440)`. -/
def DT.tod (d : DT) : Int := d.wall % 1440

/-- `d.hour` (0..23). -/
def DT.hour (d : DT) : Int := d.tod / 60

/-- `d.minute` (0..59). -/
def DT.minute (d : DT) : Int := d.tod % 60

/-- `d.weekday()`: Monday = 0 .. Sunday = 6. -/
def DT.weekday (d : DT) : Int := (d.day + 3) % 7

/-- `d.replace(hour := h, minute := m)` (sub-minute fields are 0 here). -/
def DT.replaceTime (d : DT) (h m : Int) : DT :=
  ⟨d.day * 1440 + h * 60 + m - d.off, d.off⟩

/-- `d.replace(minute := m)`, keeping the hour. -/
def DT.replaceMinute (d : DT) (m : Int) : DT :=
  ⟨d.day * 1440 + d.hour * 60 + m - d.off, d.off⟩

/-- `d.astimezone(tz)` for a zone of offset `o`: same instant, new offset. -/
def DT.astz (d : DT) (o : Int) : DT := ⟨d.utc, o⟩

/-- `current += timedelta(days=1); current = current.replace(hour=9, minute=0)`:
the scan's jump to 09:00 of the next wall day. -/
def DT.nextDay9 (d : DT) : DT := (d.addMin 1440).replaceTime 9 0

/-- `if current.hour < 9: current = current.replace(hour=9, minute=0)`:
the snap of an early cursor up to 09:00 of the same day. -/
def snap9 (d : DT) : DT := if d.hour < 9 then d.replaceTime 9 0 else d

/-- Stable insertion of a busy interval into a list sorted by start
(equal keys keep the earlier element first, as Python's stable sort does). -/
def insertByStart (x : Int × Int) : List (Int × Int) → List (Int × Int)
  | [] => [x]
  | y :: ys => if x.1 ≤ y.1 then x :: y :: ys else y :: insertByStart x ys

/-- `busy_times.sort(key = lambda x: x[0])`: stable ascending sort by start. -/
def sortByStart : List (Int × Int) → List (Int × Int)
  | [] => []
  | x :: xs => insertByStart x (sortByStart xs)

/-- The scan's conflict test: first busy interval `b` (in list order) with
`current < b.end and slot_end > b.start`; `none` when no interval overlaps. -/
def firstOverlap (c e : Int) : List (Int × Int) → Option (Int × Int)
  | [] => none
  | b :: bs => if c < b.2 ∧ b.1 < e then some b else firstOverlap c e bs

/-- One emitted slot: the dict
`{'target_slot': (start, end), 'user_slot': (start, end), 'is_reasonable': b}`. -/
structure CandidateSlot where
  targetStart : DT
  targetEnd : DT
  userStart : DT
  userEnd : DT
  isReasonable : Bool
deriving DecidableEq

/-- One conflict-possible record:
`{'slot': ..., 'conflict_with': (busy_start, busy_end), 'note': ...}`. -/
structure ConflictRecord where
  slot : CandidateSlot
  conflictWith : Int × Int
  note : String
deriving DecidableEq

/-- The returned dictionary (the `conflict_resolutions` key, untouched by the
claims, is not modelled). -/
structure SearchResult where
  available : List CandidateSlot
  conflictPossible : List ConflictRecord
deriving DecidableEq

/-- Build the emitted slot dict at cursor `c`: target interval
`(c, c + duration)`, user interval the same instants in the viewer zone,
`is_reasonable = 7 <= user_start.hour < 22`. -/
def mkSlot (c : DT) (dur uOff : Int) : CandidateSlot :=
  { targetStart := c
    targetEnd := c.addMin dur
    userStart := c.astz uOff
    userEnd := (c.addMin dur).astz uOff
    isReasonable := decide (7 ≤ (c.astz uOff).hour ∧ (c.astz uOff).hour < 22) }

/-- The window-mode scan of `suggest_time_slots` (the `else` branch over
`days_ahead`): step from `current` while `current < end_date`, skipping
excluded weekdays, excluded dates, weekends and non-working hours, emitting
an available slot when no busy interval overlaps and a conflict record when
the first overlapping busy interval is shorter than two hours.  The source
checks `hour < 9` (snap to 09:00) before `hour >= 18`; the two guards are
mutually exclusive, so testing `18 <= hour` first and snapping otherwise,
as here, is the same function. -/
def rangeLoop (dur : Int) (endD : DT) (busy : List (Int × Int))
    (excludedDays excludedDates : List Int) (uOff : Int) :
    Nat → DT → List CandidateSlot × List ConflictRecord
  | 0, _ => ([], [])
  | Nat.succ fuel, current =>
    if endD.utc ≤ current.utc then ([], [])
    else if current.weekday ∈ excludedDays then
      rangeLoop dur endD busy excludedDays excludedDates uOff fuel current.nextDay9
    else if current.day ∈ excludedDates then
      rangeLoop dur endD busy excludedDays excludedDates uOff fuel current.nextDay9
    else if 5 ≤ current.weekday then
      rangeLoop dur endD busy excludedDays excludedDates uOff fuel current.nextDay9
    else if 18 ≤ current.hour then
      rangeLoop dur endD busy excludedDays excludedDates uOff fuel current.nextDay9
    else
      match firstOverlap (snap9 current).utc ((snap9 current).addMin dur).utc busy with
      | none =>
        (mkSlot (snap9 current) dur uOff ::
          (rangeLoop dur endD busy excludedDays excludedDates uOff fuel
            ((snap9 current).addMin 30)).1,
         (rangeLoop dur endD busy excludedDays excludedDates uOff fuel
            ((snap9 current).addMin 30)).2)
      | some b =>
        if b.2 - b.1 < 120 then
          ((rangeLoop dur endD busy excludedDays excludedDates uOff fuel
              ((snap9 current).addMin 30)).1,
           ⟨mkSlot (snap9 current) dur uOff, b, "Short event - might be movable"⟩ ::
             (rangeLoop dur endD busy excludedDays excludedDates uOff fuel
               ((snap9 current).addMin 30)).2)
        else
          rangeLoop dur endD busy excludedDays excludedDates uOff fuel
            ((snap9 current).addMin 30)

/-- The per-date scan of specific-dates mode: `while current < day_end`,
break as soon as `slot_end > day_end`, otherwise the same emit logic as the
window scan (the source copy-pastes it); note there are no weekday, exclusion
or working-hour checks inside this loop. -/
def dateLoop (dur : Int) (dayEnd : DT) (busy : List (Int × Int)) (uOff : Int) :
    Nat → DT → List CandidateSlot × List ConflictRecord
  | 0, _ => ([], [])
  | Nat.succ fuel, current =>
    if dayEnd.utc ≤ current.utc then ([], [])
    else if dayEnd.utc < (current.addMin dur).utc then ([], [])
    else
      match firstOverlap current.utc ((current.addMin dur).utc) busy with
      | none =>
        (mkSlot current dur uOff ::
          (dateLoop dur dayEnd busy uOff fuel (current.addMin 30)).1,
         (dateLoop dur dayEnd busy uOff fuel (current.addMin 30)).2)
      | some b =>
        if b.2 - b.1 < 120 then
          ((dateLoop dur dayEnd busy uOff fuel (current.addMin 30)).1,
           ⟨mkSlot current dur uOff, b, "Short event - might be movable"⟩ ::
             (dateLoop dur dayEnd busy uOff fuel (current.addMin 30)).2)
        else dateLoop dur dayEnd busy uOff fuel (current.addMin 30)

/-- The initial cursor of a specific-date scan: 09:00 of the listed date in
the target zone, replaced by `start_date` — rounded up to the next half-hour
grid point — when that 09:00 lies before `start_date`. -/
def specStartCursor (tOff : Int) (startD : DT) (day : Int) : DT :=
  if (day * 1440 + 540 - tOff : Int) < startD.utc then
    if 30 ≤ startD.minute then (startD.replaceMinute 0).addMin 60
    else if 0 < startD.minute then startD.replaceMinute 30
    else startD
  else ⟨day * 1440 + 540 - tOff, tOff⟩

/-- Specific-dates mode, one listed date `day`: start at `specStartCursor`
and scan up to the 18:00 `day_end` of the date. -/
def specificDateSearch (dur : Int) (busy : List (Int × Int)) (uOff tOff : Int)
    (startD : DT) (day : Int) : List CandidateSlot × List ConflictRecord :=
  let current := specStartCursor tOff startD day
  let dayEnd : DT := ⟨day * 1440 + 1080 - tOff, tOff⟩
  dateLoop dur dayEnd busy uOff (((dayEnd.utc - current.utc).toNat / 30) + 2) current

/-- `for date_str in specific_dates:` — run the per-date scan on every listed
date, concatenating results in list order. -/
def specificSearch (dur : Int) (busy : List (Int × Int)) (uOff tOff : Int)
    (startD : DT) : List Int → List CandidateSlot × List ConflictRecord
  | [] => ([], [])
  | d :: ds =>
    let p := specificDateSearch dur busy uOff tOff startD d
    let q := specificSearch dur busy uOff tOff startD ds
    (p.1 ++ q.1, p.2 ++ q.2)

/-- `suggest_time_slots` after the busy fetch: sort the busy intervals by
start, run specific-dates mode when `specific_dates` is non-empty and the
window scan otherwise, and cap the output at 10 available slots and 5
conflict records. -/
def suggest_time_slots_core (busyRaw : List (Int × Int))
    (dur startUtc endUtc tOff uOff : Int)
    (excludedDays excludedDates specificDates : List Int) : SearchResult :=
  let busy := sortByStart busyRaw
  match specificDates with
  | [] =>
    let p := rangeLoop dur ⟨endUtc, tOff⟩ busy excludedDays excludedDates uOff
      (((endUtc - startUtc).toNat / 30) + 2) ⟨startUtc, tOff⟩
    ⟨p.1.take 10, p.2.take 5⟩
  | d :: ds =>
    let p := specificSearch dur busy uOff tOff ⟨startUtc, tOff⟩ (d :: ds)
    ⟨p.1.take 10, p.2.take 5⟩

/-- The `start_date` default of `suggest_time_slots`: the supplied instant,
or `datetime.now(target_tz).replace(hour=9, minute=0, ...)` — 09:00 of the
current wall day in the target zone — when omitted. -/
def effectiveStart (now tOff : Int) : Option Int → Int
  | some s => s
  | none => (((⟨now, tOff⟩ : DT)).replaceTime 9 0).utc

/-- Maximum of a list of day numbers (`sorted(specific_dates)[-1]`). -/
def listMax : List Int → Int
  | [] => 0
  | [x] => x
  | x :: y :: ys => max x (listMax (y :: ys))

/-- The search window end: `start_date + timedelta(days=days_ahead)` in
window mode, the end of the latest listed date (23:59 of `max_date` in the
target zone) in specific-dates mode. -/
def computeEndUtc (startUtc daysAhead tOff : Int) : List Int → Int
  | [] => startUtc + daysAhead * 1440
  | d :: ds => listMax (d :: ds) * 1440 + 1439 - tOff

/-- `suggest_time_slots` with zone offsets already resolved: compute the
window, fetch the busy intervals for `[start_date, end_date]`, and run the
core scan. -/
def suggest_time_slots_resolved (fetch : Int → Int → List (Int × Int))
    (dur now : Int) (startDate? : Option Int) (daysAhead tOff uOff : Int)
    (excludedDays excludedDates specificDates : List Int) : SearchResult :=
  let s := effectiveStart now tOff startDate?
  let e := computeEndUtc s daysAhead tOff specificDates
  suggest_time_slots_core (fetch s e) dur s e tOff uOff
    excludedDays excludedDates specificDates

/-- `ZoneInfo(zone_str)` with the `except: fall back to UTC` wrapper of
`suggest_time_slots`: the zone database `zdb` gives the offset of a valid
zone identifier and `none` for an invalid one, and an invalid zone
degrades to UTC (offset 0) with a printed warning. -/
def zoneOffset (zdb : String → Option Int) (s : String) : Int := (zdb s).getD 0

/-- `suggest_time_slots` as called with zone name strings: both zones are
resolved through `zoneOffset` (invalid names degrade to UTC), then the
resolved search runs. -/
def suggest_time_slots (zdb : String → Option Int)
    (fetch : Int → Int → List (Int × Int)) (dur now : Int)
    (startDate? : Option Int) (daysAhead : Int) (targetZone viewerZone : String)
    (excludedDays excludedDates specificDates : List Int) : SearchResult :=
  suggest_time_slots_resolved fetch dur now startDate? daysAhead
    (zoneOffset zdb targetZone) (zoneOffset zdb viewerZone)
    excludedDays excludedDates specificDates

/-- `_find_prep_slot`'s scan: like the window scan but with no exclusion
lists and no conflict records — return the first candidate `(current,
current + duration)` whose start passes the weekend and working-hour guards
and that overlaps no busy interval.  Note the source never compares
`slot_end` to `end_date` (or to anything else): only the start is guarded. -/
def findPrepSlotLoop (dur endU : Int) (busy : List (Int × Int)) :
    Nat → DT → Option (Int × Int)
  | 0, _ => none
  | Nat.succ fuel, current =>
    if endU ≤ current.utc then none
    else if 5 ≤ current.weekday then
      findPrepSlotLoop dur endU busy fuel current.nextDay9
    else if 18 ≤ current.hour then
      findPrepSlotLoop dur endU busy fuel current.nextDay9
    else
      match firstOverlap (snap9 current).utc ((snap9 current).addMin dur).utc busy with
      | some _ => findPrepSlotLoop dur endU busy fuel ((snap9 current).addMin 30)
      | none => some ((snap9 current).utc, ((snap9 current).addMin dur).utc)

/-- `_find_prep_slot(start_date, end_date, duration_minutes)`: fetch and sort
the busy intervals of the prep window, then scan.  All of the scheduler's
datetimes carry `timezone.utc`, so instants are plain UTC minutes here. -/
def find_prep_slot (fetch : Int → Int → List (Int × Int))
    (startU endU durMin : Int) : Option (Int × Int) :=
  findPrepSlotLoop durMin endU (sortByStart (fetch startU endU))
    (((endU - startU).toNat / 30) + 2) ⟨startU, 0⟩

/-- One entry of a suggestion's `prep_slots` list: the task's duration in
minutes, the slot found for it, and — exactly when no slot was found — the
`'suggested_time'` marker built from `prep_start_date` (its wall day,
standing for the `"%Y-%m-%d (flexible)"` string). -/
structure PrepItem where
  taskDur : Int
  slot : Option (Int × Int)
  flexibleDay : Option Int
deriving DecidableEq

/-- The prep-task placement loop of `suggest_schedule_with_prep`: place the
tasks in order, advancing `current_prep_time` to one hour past a found
slot's end, and emitting a flexible marker (leaving `current_prep_time`
unchanged) when `_find_prep_slot` returns nothing. -/
def placePrepTasks (fetch : Int → Int → List (Int × Int))
    (prepStart prepEnd : Int) : List Int → Int → List PrepItem
  | [], _ => []
  | d :: rest, cur =>
    match find_prep_slot fetch cur prepEnd d with
    | some se =>
      ⟨d, some se, none⟩ :: placePrepTasks fetch prepStart prepEnd rest (se.2 + 60)
    | none =>
      ⟨d, none, some (prepStart / 1440)⟩ ::
        placePrepTasks fetch prepStart prepEnd rest cur

/-- One emitted suggestion: the chosen event slot plus the prep placement. -/
structure ChainSuggestion where
  eventStart : Int
  eventEnd : Int
  prepSlots : List PrepItem
  totalPrepHours : Int
deriving DecidableEq

/-- The primary candidates of `suggest_schedule_with_prep`: lead-time delay
(`max(2, int(total_prep_hours / 2))` days when any prep is needed, else 0),
then the first five available slots of a default-parameter search (UTC
target and viewer zones, no exclusions) starting at `now + lead` over
`days_ahead` days. -/
def primary_candidates (fetch : Int → Int → List (Int × Int))
    (now evDur totalPrepHours daysAhead : Int) : List CandidateSlot :=
  let minLeadDays : Int :=
    if 0 < totalPrepHours then max 2 (totalPrepHours.tdiv 2) else 0
  (suggest_time_slots_resolved fetch evDur now (some (now + minLeadDays * 1440))
    daysAhead 0 0 [] [] []).available.take 5

/-- Per primary candidate: derive the prep window — ideally three days
before the event but never before `now`, ending one hour before the event;
when that window is inverted, start at `now`, and when even that fails, let
prep run right up to the event start — then place every prep task. -/
def mkChainSuggestion (fetch : Int → Int → List (Int × Int))
    (now totalPrepHours : Int) (taskDurs : List Int) (s : CandidateSlot) :
    ChainSuggestion :=
  let eventStart := s.targetStart.utc
  let eventEnd := s.targetEnd.utc
  let idealPrepStart := eventStart - 3 * 1440
  let ps0 := max idealPrepStart now
  let pe0 := eventStart - 60
  let ps1 := if pe0 < ps0 then now else ps0
  let pe1 := if pe0 < ps0 then (if pe0 < now then eventStart else pe0) else pe0
  ⟨eventStart, eventEnd, placePrepTasks fetch ps1 pe1 taskDurs ps1, totalPrepHours⟩

/-- `suggest_schedule_with_prep`: one suggestion per primary candidate (top
5), each carrying the event slot and the prep placement — emitted whether or
not every prep task found a slot. -/
def suggest_schedule_with_prep (fetch : Int → Int → List (Int × Int))
    (now evDur totalPrepHours : Int) (taskDurs : List Int) (daysAhead : Int) :
    List ChainSuggestion :=
  (primary_candidates fetch now evDur totalPrepHours daysAhead).map
    (mkChainSuggestion fetch now totalPrepHours taskDurs)

/-- A raw calendar event as `get_busy_times` sees it: either its start/end
fields are missing, or they fail to parse (the `except ValueError: continue`
path), or they parse to a concrete interval. -/
inductive CalEvent where
  | missingTimes : CalEvent
  | unparseable : CalEvent
  | timed : Int → Int → CalEvent
deriving DecidableEq

/-- The per-event body of `get_busy_times`: keep only events whose start and
end are present and parse. -/
def parseBusy : CalEvent → Option (Int × Int)
  | .timed s e => some (s, e)
  | _ => none

/-- `get_events` with its fetch outcome made explicit: a successful API call
yields the event list; an `HttpError` is caught, printed, and turned into
the empty list. -/
def get_events (fetched : Except String (List CalEvent)) : List CalEvent :=
  match fetched with
  | .error _ => []
  | .ok evs => evs

/-- `get_busy_times`: parse the fetched events into intervals. -/
def get_busy_times (fetched : Except String (List CalEvent)) :
    List (Int × Int) :=
  (get_events fetched).filterMap parseBusy

/-- ASCII upper-casing of one character (Python `str.upper` on the ASCII
range, which covers every string the resolver compares). -/
def upChar (c : Char) : Char :=
  if 97 ≤ c.toNat ∧ c.toNat ≤ 122 then Char.ofNat (c.toNat - 32) else c

/-- ASCII lower-casing of one character (Python `str.lower` likewise). -/
def downChar (c : Char) : Char :=
  if 65 ≤ c.toNat ∧ c.toNat ≤ 90 then Char.ofNat (c.toNat + 32) else c

/-- `s.upper()` over the ASCII range. -/
def strUpper (s : String) : String := ⟨s.data.map upChar⟩

/-- `s.lower()` over the ASCII range. -/
def strLower (s : String) : String := ⟨s.data.map downChar⟩

/-- The fixed alias table of `resolve_timezone`. -/
def tzAliases : List (String × String) :=
  [("india", "Asia/Kolkata"), ("ist", "Asia/Kolkata"),
   ("japan", "Asia/Tokyo"), ("jst", "Asia/Tokyo"),
   ("uk", "Europe/London"), ("london", "Europe/London"),
   ("ny", "America/New_York"), ("nyc", "America/New_York"),
   ("sf", "America/Los_Angeles"), ("california", "America/Los_Angeles")]

/-- `timezone_input.lower() in aliases` lookup. -/
def tzAliasLookup (s : String) : Option String :=
  (tzAliases.find? (fun p => p.1 == s)).map (fun p => p.2)

/-- `resolve_timezone(timezone_input)`.  `isValid` stands for "ZoneInfo
accepts this identifier"; `backend` is the LLM collaborator's reply
(`none` covers both "no backend available" and "backend raised").  Empty or
case-insensitive "UTC" input short-circuits to "UTC"; a valid identifier is
returned unchanged; then the alias table; then the backend's reply, accepted
only if it validates; any failure falls back to "UTC" with a warning. -/
def resolve_timezone (isValid : String → Bool) (backend : Option String)
    (input : String) : String :=
  if input = "" ∨ strUpper input = "UTC" then "UTC"
  else if isValid input then input
  else
    match tzAliasLookup (strLower input) with
    | some z => z
    | none =>
      match backend with
      | some r => if isValid r then r else "UTC"
      | none => "UTC"

/-- A concrete busy-interval provider: the events of `evs` that intersect
the queried half-open range, as a calendar backend returns them. -/
def fetchOf (evs : List (Int × Int)) : Int → Int → List (Int × Int) :=
  fun s e => evs.filter (fun b => b.1 < e && s < b.2)

/-- A concrete zone-validity oracle: the finitely many zones this
development's examples mention. -/
def validZonesW : List String :=
  ["UTC", "Asia/Kolkata", "Asia/Tokyo", "Europe/London", "America/New_York",
   "America/Los_Angeles"]

/-- Validity test over `validZonesW`. -/
def isValidW (s : String) : Bool := validZonesW.contains s

/-- A concrete zone-offset database knowing only UTC. -/
def zdbW (s : String) : Option Int := if s = "UTC" then some 0 else none

/-- Adding minutes shifts the instant. -/
theorem DT.addMin_utc (d : DT) (m : Int) : (d.addMin m).utc = d.utc + m := rfl

/-- Adding minutes keeps the zone. -/
theorem DT.addMin_off (d : DT) (m : Int) : (d.addMin m).off = d.off := rfl

/-- The 09:00 snap never moves the cursor backwards. -/
theorem snap9_utc_le (d : DT) : d.utc ≤ (snap9 d).utc := by
  unfold snap9
  split
  · simp only [DT.replaceTime, DT.day, DT.hour, DT.tod, DT.wall] at *
    omega
  · exact le_refl _

/-- The 09:00 snap keeps the zone. -/
theorem snap9_off (d : DT) : (snap9 d).off = d.off := by
  unfold snap9
  split
  · rfl
  · rfl

/-- The 09:00 snap stays on the same wall day. -/
theorem snap9_day (d : DT) : (snap9 d).day = d.day := by
  unfold snap9
  split
  · simp only [DT.replaceTime, DT.day, DT.wall]
    omega
  · rfl

/-- The 09:00 snap keeps the weekday. -/
theorem snap9_weekday (d : DT) : (snap9 d).weekday = d.weekday := by
  unfold DT.weekday
  rw [snap9_day]

/-- After the working-hour guards, the snapped cursor sits in [09:00, 18:00). -/
theorem snap9_tod (d : DT) (h : ¬ 18 ≤ d.hour) :
    540 ≤ (snap9 d).tod ∧ (snap9 d).tod < 1080 := by
  unfold snap9
  split
  · simp only [DT.replaceTime, DT.day, DT.hour, DT.tod, DT.wall] at *
    omega
  · simp only [DT.hour, DT.tod, DT.wall] at *
    omega

/-- The snapped cursor advanced by the 30-minute step is still at or after
the original cursor. -/
theorem snap9_addMin30_le (d : DT) : d.utc ≤ ((snap9 d).addMin 30).utc := by
  have h := snap9_utc_le d
  simp only [DT.addMin]
  omega

/-- The next-day jump never moves the cursor backwards. -/
theorem nextDay9_utc_le (d : DT) : d.utc ≤ d.nextDay9.utc := by
  simp only [DT.nextDay9, DT.replaceTime, DT.day, DT.addMin, DT.wall]
  omega

/-- Membership through stable insertion. -/
theorem mem_insertByStart {x b : Int × Int} :
    ∀ {l : List (Int × Int)}, b ∈ insertByStart x l ↔ b = x ∨ b ∈ l := by
  intro l
  induction l with
  | nil => simp [insertByStart]
  | cons y ys ih =>
    unfold insertByStart
    split
    · simp
    · simp only [List.mem_cons, ih]
      tauto

/-- Sorting the busy list neither adds nor removes intervals. -/
theorem mem_sortByStart {b : Int × Int} :
    ∀ {l : List (Int × Int)}, b ∈ sortByStart l ↔ b ∈ l := by
  intro l
  induction l with
  | nil => simp [sortByStart]
  | cons x xs ih =>
    simp only [sortByStart, mem_insertByStart, ih, List.mem_cons]

/-- When the scan reports no conflict, no busy interval overlaps. -/
theorem firstOverlap_none {c e : Int} :
    ∀ {l : List (Int × Int)}, firstOverlap c e l = none →
      ∀ b ∈ l, ¬(c < b.2 ∧ b.1 < e) := by
  intro l
  induction l with
  | nil => intro _ b hb; simp at hb
  | cons y ys ih =>
    intro h b hb
    unfold firstOverlap at h
    split at h
    · exact absurd h (by simp)
    · rcases List.mem_cons.mp hb with rfl | hb2
      · assumption
      · exact ih h b hb2

/-- When the scan reports a conflict, the reported interval is a busy
interval and it overlaps the slot. -/
theorem firstOverlap_some {c e : Int} {b : Int × Int} :
    ∀ {l : List (Int × Int)}, firstOverlap c e l = some b →
      b ∈ l ∧ c < b.2 ∧ b.1 < e := by
  intro l
  induction l with
  | nil => intro h; simp [firstOverlap] at h
  | cons y ys ih =>
    intro h
    unfold firstOverlap at h
    split at h
    · cases h
      exact ⟨List.mem_cons_self _ _, by assumption⟩
    · have := ih h
      exact ⟨List.mem_cons_of_mem _ this.1, this.2⟩

/-- Invariant of the window-mode scan: every emitted slot starts at or after
the cursor, within working hours on a non-excluded weekday, spans exactly
the duration, and its conflict status is faithful to the busy list the loop
was given. -/
theorem rangeLoop_spec (dur : Int) (endD : DT) (busy : List (Int × Int))
    (exDays exDates : List Int) (uOff : Int) :
    ∀ fuel : Nat, ∀ c : DT,
      (∀ s ∈ (rangeLoop dur endD busy exDays exDates uOff fuel c).1,
        c.utc ≤ s.targetStart.utc ∧
        540 ≤ s.targetStart.tod ∧ s.targetStart.tod < 1080 ∧
        s.targetStart.weekday < 5 ∧ s.targetStart.weekday ∉ exDays ∧
        s.targetStart.day ∉ exDates ∧
        s.targetEnd = s.targetStart.addMin dur ∧
        ∀ b ∈ busy, ¬(s.targetStart.utc < b.2 ∧ b.1 < s.targetEnd.utc)) ∧
      (∀ r ∈ (rangeLoop dur endD busy exDays exDates uOff fuel c).2,
        c.utc ≤ r.slot.targetStart.utc ∧
        540 ≤ r.slot.targetStart.tod ∧ r.slot.targetStart.tod < 1080 ∧
        r.slot.targetStart.weekday < 5 ∧ r.slot.targetStart.weekday ∉ exDays ∧
        r.slot.targetStart.day ∉ exDates ∧
        r.slot.targetEnd = r.slot.targetStart.addMin dur ∧
        r.conflictWith ∈ busy ∧ r.conflictWith.2 - r.conflictWith.1 < 120 ∧
        r.slot.targetStart.utc < r.conflictWith.2 ∧
        r.conflictWith.1 < r.slot.targetEnd.utc) := by
  intro fuel
  induction fuel with
  | zero =>
    intro c
    constructor
    · intro s hs; simp [rangeLoop] at hs
    · intro r hr; simp [rangeLoop] at hr
  | succ n ih =>
    intro c
    by_cases h1 : endD.utc ≤ c.utc
    · constructor
      · intro s hs; rw [rangeLoop, if_pos h1] at hs; simp at hs
      · intro r hr; rw [rangeLoop, if_pos h1] at hr; simp at hr
    by_cases h2 : c.weekday ∈ exDays
    · constructor
      · intro s hs
        rw [rangeLoop, if_neg h1, if_pos h2] at hs
        have H := (ih c.nextDay9).1 s hs
        exact ⟨le_trans (nextDay9_utc_le c) H.1, H.2⟩
      · intro r hr
        rw [rangeLoop, if_neg h1, if_pos h2] at hr
        have H := (ih c.nextDay9).2 r hr
        exact ⟨le_trans (nextDay9_utc_le c) H.1, H.2⟩
    by_cases h3 : c.day ∈ exDates
    · constructor
      · intro s hs
        rw [rangeLoop, if_neg h1, if_neg h2, if_pos h3] at hs
        have H := (ih c.nextDay9).1 s hs
        exact ⟨le_trans (nextDay9_utc_le c) H.1, H.2⟩
      · intro r hr
        rw [rangeLoop, if_neg h1, if_neg h2, if_pos h3] at hr
        have H := (ih c.nextDay9).2 r hr
        exact ⟨le_trans (nextDay9_utc_le c) H.1, H.2⟩
    by_cases h4 : 5 ≤ c.weekday
    · constructor
      · intro s hs
        rw [rangeLoop, if_neg h1, if_neg h2, if_neg h3, if_pos h4] at hs
        have H := (ih c.nextDay9).1 s hs
        exact ⟨le_trans (nextDay9_utc_le c) H.1, H.2⟩
      · intro r hr
        rw [rangeLoop, if_neg h1, if_neg h2, if_neg h3, if_pos h4] at hr
        have H := (ih c.nextDay9).2 r hr
        exact ⟨le_trans (nextDay9_utc_le c) H.1, H.2⟩
    by_cases h5 : 18 ≤ c.hour
    · constructor
      · intro s hs
        rw [rangeLoop, if_neg h1, if_neg h2, if_neg h3, if_neg h4, if_pos h5] at hs
        have H := (ih c.nextDay9).1 s hs
        exact ⟨le_trans (nextDay9_utc_le c) H.1, H.2⟩
      · intro r hr
        rw [rangeLoop, if_neg h1, if_neg h2, if_neg h3, if_neg h4, if_pos h5] at hr
        have H := (ih c.nextDay9).2 r hr
        exact ⟨le_trans (nextDay9_utc_le c) H.1, H.2⟩
    rcases hov : firstOverlap (snap9 c).utc ((snap9 c).addMin dur).utc busy with _ | b
    · constructor
      · intro s hs
        rw [rangeLoop, if_neg h1, if_neg h2, if_neg h3, if_neg h4, if_neg h5, hov] at hs
        dsimp only at hs
        rcases List.mem_cons.mp hs with rfl | hs2
        · refine ⟨snap9_utc_le c, (snap9_tod c h5).1, (snap9_tod c h5).2, ?_, ?_, ?_, rfl, ?_⟩
          · show (snap9 c).weekday < 5
            rw [snap9_weekday]; omega
          · show (snap9 c).weekday ∉ exDays
            rw [snap9_weekday]; exact h2
          · show (snap9 c).day ∉ exDates
            rw [snap9_day]; exact h3
          · intro b hb
            exact firstOverlap_none hov b hb
        · have H := (ih ((snap9 c).addMin 30)).1 s hs2
          exact ⟨le_trans (snap9_addMin30_le c) H.1, H.2⟩
      · intro r hr
        rw [rangeLoop, if_neg h1, if_neg h2, if_neg h3, if_neg h4, if_neg h5, hov] at hr
        dsimp only at hr
        have H := (ih ((snap9 c).addMin 30)).2 r hr
        exact ⟨le_trans (snap9_addMin30_le c) H.1, H.2⟩
    · by_cases h6 : b.2 - b.1 < 120
      · constructor
        · intro s hs
          rw [rangeLoop, if_neg h1, if_neg h2, if_neg h3, if_neg h4, if_neg h5, hov] at hs
          dsimp only at hs
          rw [if_pos h6] at hs
          have H := (ih ((snap9 c).addMin 30)).1 s hs
          exact ⟨le_trans (snap9_addMin30_le c) H.1, H.2⟩
        · intro r hr
          rw [rangeLoop, if_neg h1, if_neg h2, if_neg h3, if_neg h4, if_neg h5, hov] at hr
          dsimp only at hr
          rw [if_pos h6] at hr
          rcases List.mem_cons.mp hr with rfl | hr2
          · have hov2 := firstOverlap_some hov
            refine ⟨snap9_utc_le c, (snap9_tod c h5).1, (snap9_tod c h5).2, ?_, ?_, ?_, rfl,
              hov2.1, h6, hov2.2.1, hov2.2.2⟩
            · show (snap9 c).weekday < 5
              rw [snap9_weekday]; omega
            · show (snap9 c).weekday ∉ exDays
              rw [snap9_weekday]; exact h2
            · show (snap9 c).day ∉ exDates
              rw [snap9_day]; exact h3
          · have H := (ih ((snap9 c).addMin 30)).2 r hr2
            exact ⟨le_trans (snap9_addMin30_le c) H.1, H.2⟩
      · constructor
        · intro s hs
          rw [rangeLoop, if_neg h1, if_neg h2, if_neg h3, if_neg h4, if_neg h5, hov] at hs
          dsimp only at hs
          rw [if_neg h6] at hs
          have H := (ih ((snap9 c).addMin 30)).1 s hs
          exact ⟨le_trans (snap9_addMin30_le c) H.1, H.2⟩
        · intro r hr
          rw [rangeLoop, if_neg h1, if_neg h2, if_neg h3, if_neg h4, if_neg h5, hov] at hr
          dsimp only at hr
          rw [if_neg h6] at hr
          have H := (ih ((snap9 c).addMin 30)).2 r hr
          exact ⟨le_trans (snap9_addMin30_le c) H.1, H.2⟩

/-- The target start of an emitted slot is the cursor it was emitted at. -/
theorem mkSlot_targetStart (c : DT) (dur uOff : Int) :
    (mkSlot c dur uOff).targetStart = c := rfl

/-- The target end of an emitted slot is the cursor plus the duration. -/
theorem mkSlot_targetEnd (c : DT) (dur uOff : Int) :
    (mkSlot c dur uOff).targetEnd = c.addMin dur := rfl

/-- Invariant of the per-date scan: every emitted slot starts at or after
the cursor, keeps the cursor's zone, starts strictly before and ends at or
before the date's 18:00 boundary, spans exactly the duration, and its
conflict status is faithful to the busy list. -/
theorem dateLoop_spec (dur : Int) (dayEnd : DT) (busy : List (Int × Int))
    (uOff : Int) :
    ∀ fuel : Nat, ∀ c : DT,
      (∀ s ∈ (dateLoop dur dayEnd busy uOff fuel c).1,
        c.utc ≤ s.targetStart.utc ∧ s.targetStart.off = c.off ∧
        s.targetStart.utc < dayEnd.utc ∧
        s.targetEnd = s.targetStart.addMin dur ∧
        s.targetEnd.utc ≤ dayEnd.utc ∧
        ∀ b ∈ busy, ¬(s.targetStart.utc < b.2 ∧ b.1 < s.targetEnd.utc)) ∧
      (∀ r ∈ (dateLoop dur dayEnd busy uOff fuel c).2,
        c.utc ≤ r.slot.targetStart.utc ∧ r.slot.targetStart.off = c.off ∧
        r.slot.targetStart.utc < dayEnd.utc ∧
        r.slot.targetEnd = r.slot.targetStart.addMin dur ∧
        r.slot.targetEnd.utc ≤ dayEnd.utc ∧
        r.conflictWith ∈ busy ∧ r.conflictWith.2 - r.conflictWith.1 < 120 ∧
        r.slot.targetStart.utc < r.conflictWith.2 ∧
        r.conflictWith.1 < r.slot.targetEnd.utc) := by
  intro fuel
  induction fuel with
  | zero =>
    intro c
    constructor
    · intro s hs; simp [dateLoop] at hs
    · intro r hr; simp [dateLoop] at hr
  | succ n ih =>
    intro c
    by_cases h1 : dayEnd.utc ≤ c.utc
    · constructor
      · intro s hs; rw [dateLoop, if_pos h1] at hs; simp at hs
      · intro r hr; rw [dateLoop, if_pos h1] at hr; simp at hr
    by_cases h2 : dayEnd.utc < (c.addMin dur).utc
    · constructor
      · intro s hs; rw [dateLoop, if_neg h1, if_pos h2] at hs; simp at hs
      · intro r hr; rw [dateLoop, if_neg h1, if_pos h2] at hr; simp at hr
    have hstep : c.utc ≤ (c.addMin 30).utc := by simp [DT.addMin]
    have hoffstep : (c.addMin 30).off = c.off := rfl
    rcases hov : firstOverlap c.utc ((c.addMin dur).utc) busy with _ | b
    · constructor
      · intro s hs
        rw [dateLoop, if_neg h1, if_neg h2, hov] at hs
        dsimp only at hs
        rcases List.mem_cons.mp hs with rfl | hs2
        · refine ⟨le_refl _, rfl, ?_, rfl, ?_, ?_⟩
          · show c.utc < dayEnd.utc
            omega
          · show (c.addMin dur).utc ≤ dayEnd.utc
            omega
          · intro b hb
            exact firstOverlap_none hov b hb
        · have H := (ih (c.addMin 30)).1 s hs2
          exact ⟨le_trans hstep H.1, hoffstep ▸ H.2.1, H.2.2⟩
      · intro r hr
        rw [dateLoop, if_neg h1, if_neg h2, hov] at hr
        dsimp only at hr
        have H := (ih (c.addMin 30)).2 r hr
        exact ⟨le_trans hstep H.1, hoffstep ▸ H.2.1, H.2.2⟩
    · by_cases h6 : b.2 - b.1 < 120
      · constructor
        · intro s hs
          rw [dateLoop, if_neg h1, if_neg h2, hov] at hs
          dsimp only at hs
          rw [if_pos h6] at hs
          have H := (ih (c.addMin 30)).1 s hs
          exact ⟨le_trans hstep H.1, hoffstep ▸ H.2.1, H.2.2⟩
        · intro r hr
          rw [dateLoop, if_neg h1, if_neg h2, hov] at hr
          dsimp only at hr
          rw [if_pos h6] at hr
          rcases List.mem_cons.mp hr with rfl | hr2
          · have hov2 := firstOverlap_some hov
            refine ⟨le_refl _, rfl, ?_, rfl, ?_, hov2.1, h6, hov2.2.1, hov2.2.2⟩
            · show c.utc < dayEnd.utc
              omega
            · show (c.addMin dur).utc ≤ dayEnd.utc
              omega
          · have H := (ih (c.addMin 30)).2 r hr2
            exact ⟨le_trans hstep H.1, hoffstep ▸ H.2.1, H.2.2⟩
      · constructor
        · intro s hs
          rw [dateLoop, if_neg h1, if_neg h2, hov] at hs
          dsimp only at hs
          rw [if_neg h6] at hs
          have H := (ih (c.addMin 30)).1 s hs
          exact ⟨le_trans hstep H.1, hoffstep ▸ H.2.1, H.2.2⟩
        · intro r hr
          rw [dateLoop, if_neg h1, if_neg h2, hov] at hr
          dsimp only at hr
          rw [if_neg h6] at hr
          have H := (ih (c.addMin 30)).2 r hr
          exact ⟨le_trans hstep H.1, hoffstep ▸ H.2.1, H.2.2⟩

/-- The specific-date start cursor keeps the target zone. -/
theorem specStartCursor_off (tOff : Int) (startD : DT) (day : Int)
    (hoff : startD.off = tOff) : (specStartCursor tOff startD day).off = tOff := by
  unfold specStartCursor
  split
  · split
    · simpa [DT.addMin, DT.replaceMinute] using hoff
    · split
      · simpa [DT.replaceMinute] using hoff
      · exact hoff
  · rfl

/-- The specific-date start cursor never precedes `start_date`. -/
theorem specStartCursor_ge_start (tOff : Int) (startD : DT) (day : Int) :
    startD.utc ≤ (specStartCursor tOff startD day).utc := by
  unfold specStartCursor
  split
  · split
    · simp only [DT.addMin, DT.replaceMinute, DT.day, DT.hour, DT.tod, DT.minute,
        DT.wall] at *
      omega
    · split
      · simp only [DT.replaceMinute, DT.day, DT.hour, DT.tod, DT.minute, DT.wall] at *
        omega
      · exact le_refl _
  · dsimp only
    omega

/-- The specific-date start cursor never precedes 09:00 of the listed date. -/
theorem specStartCursor_ge_nine (tOff : Int) (startD : DT) (day : Int) :
    day * 1440 + 540 - tOff ≤ (specStartCursor tOff startD day).utc := by
  have h := specStartCursor_ge_start tOff startD day
  unfold specStartCursor at *
  split at h
  · split
    · omega
    · omega
  · split
    · omega
    · dsimp only
      omega

/-- An available slot of the multi-date search comes from one listed date. -/
theorem specificSearch_avail_mem {dur : Int} {busy : List (Int × Int)}
    {uOff tOff : Int} {startD : DT} {s : CandidateSlot} :
    ∀ {ds : List Int}, s ∈ (specificSearch dur busy uOff tOff startD ds).1 →
      ∃ d ∈ ds, s ∈ (specificDateSearch dur busy uOff tOff startD d).1 := by
  intro ds
  induction ds with
  | nil => intro h; simp [specificSearch] at h
  | cons d rest ih =>
    intro h
    simp only [specificSearch] at h
    rcases List.mem_append.mp h with h1 | h2
    · exact ⟨d, List.mem_cons_self _ _, h1⟩
    · obtain ⟨d2, hd2, hmem⟩ := ih h2
      exact ⟨d2, List.mem_cons_of_mem _ hd2, hmem⟩

/-- A conflict record of the multi-date search comes from one listed date. -/
theorem specificSearch_conf_mem {dur : Int} {busy : List (Int × Int)}
    {uOff tOff : Int} {startD : DT} {r : ConflictRecord} :
    ∀ {ds : List Int}, r ∈ (specificSearch dur busy uOff tOff startD ds).2 →
      ∃ d ∈ ds, r ∈ (specificDateSearch dur busy uOff tOff startD d).2 := by
  intro ds
  induction ds with
  | nil => intro h; simp [specificSearch] at h
  | cons d rest ih =>
    intro h
    simp only [specificSearch] at h
    rcases List.mem_append.mp h with h1 | h2
    · exact ⟨d, List.mem_cons_self _ _, h1⟩
    · obtain ⟨d2, hd2, hmem⟩ := ih h2
      exact ⟨d2, List.mem_cons_of_mem _ hd2, hmem⟩

/-- What one specific-date scan guarantees about its emissions: target zone,
start at or after `start_date`, start within the date's working window,
exact duration, end at or before the date's 18:00, faithful conflict
status. -/
theorem specificDateSearch_spec (dur : Int) (busy : List (Int × Int))
    (uOff tOff : Int) (startD : DT) (day : Int) (hoff : startD.off = tOff) :
    (∀ s ∈ (specificDateSearch dur busy uOff tOff startD day).1,
      s.targetStart.off = tOff ∧ startD.utc ≤ s.targetStart.utc ∧
      day * 1440 + 540 ≤ s.targetStart.wall ∧
      s.targetStart.wall < day * 1440 + 1080 ∧
      s.targetEnd = s.targetStart.addMin dur ∧
      s.targetEnd.wall ≤ day * 1440 + 1080 ∧
      ∀ b ∈ busy, ¬(s.targetStart.utc < b.2 ∧ b.1 < s.targetEnd.utc)) ∧
    (∀ r ∈ (specificDateSearch dur busy uOff tOff startD day).2,
      r.slot.targetStart.off = tOff ∧ startD.utc ≤ r.slot.targetStart.utc ∧
      day * 1440 + 540 ≤ r.slot.targetStart.wall ∧
      r.slot.targetStart.wall < day * 1440 + 1080 ∧
      r.slot.targetEnd = r.slot.targetStart.addMin dur ∧
      r.slot.targetEnd.wall ≤ day * 1440 + 1080 ∧
      r.conflictWith ∈ busy ∧ r.conflictWith.2 - r.conflictWith.1 < 120 ∧
      r.slot.targetStart.utc < r.conflictWith.2 ∧
      r.conflictWith.1 < r.slot.targetEnd.utc) := by
  have hcur_off := specStartCursor_off tOff startD day hoff
  have hcur_start := specStartCursor_ge_start tOff startD day
  have hcur_nine := specStartCursor_ge_nine tOff startD day
  constructor
  · intro s hs
    simp only [specificDateSearch] at hs
    have H := (dateLoop_spec dur ⟨day * 1440 + 1080 - tOff, tOff⟩ busy uOff _
      (specStartCursor tOff startD day)).1 s hs
    obtain ⟨hle, hoff2, hlt, hend, hendle, hbusy⟩ := H
    have e1 : s.targetStart.off = tOff := by rw [hoff2, hcur_off]
    have e2 : s.targetEnd.off = tOff := by rw [hend, DT.addMin_off, e1]
    have hlt2 : s.targetStart.utc < day * 1440 + 1080 - tOff := hlt
    have hendle2 : s.targetEnd.utc ≤ day * 1440 + 1080 - tOff := hendle
    refine ⟨e1, le_trans hcur_start hle, ?_, ?_, hend, ?_, hbusy⟩
    · simp only [DT.wall]; omega
    · simp only [DT.wall]; omega
    · simp only [DT.wall]; omega
  · intro r hr
    simp only [specificDateSearch] at hr
    have H := (dateLoop_spec dur ⟨day * 1440 + 1080 - tOff, tOff⟩ busy uOff _
      (specStartCursor tOff startD day)).2 r hr
    obtain ⟨hle, hoff2, hlt, hend, hendle, hmem, hdur, hov1, hov2⟩ := H
    have e1 : r.slot.targetStart.off = tOff := by rw [hoff2, hcur_off]
    have e2 : r.slot.targetEnd.off = tOff := by rw [hend, DT.addMin_off, e1]
    have hlt2 : r.slot.targetStart.utc < day * 1440 + 1080 - tOff := hlt
    have hendle2 : r.slot.targetEnd.utc ≤ day * 1440 + 1080 - tOff := hendle
    refine ⟨e1, le_trans hcur_start hle, ?_, ?_, hend, ?_, hmem, hdur, hov1, hov2⟩
    · simp only [DT.wall]; omega
    · simp only [DT.wall]; omega
    · simp only [DT.wall]; omega

/-- Shared helper: an available slot of either search mode overlaps no busy
interval of the raw fetched list. -/
theorem core_avail_no_overlap
    (busyRaw : List (Int × Int)) (dur startUtc endUtc tOff uOff : Int)
    (excludedDays excludedDates specificDates : List Int) (s : CandidateSlot)
    (hs : s ∈ (suggest_time_slots_core busyRaw dur startUtc endUtc tOff uOff
      excludedDays excludedDates specificDates).available)
    (b : Int × Int) (hb : b ∈ busyRaw) :
    ¬(s.targetStart.utc < b.2 ∧ b.1 < s.targetEnd.utc) := by
  cases specificDates with
  | nil =>
    simp only [suggest_time_slots_core] at hs
    have hs2 := List.take_subset _ _ hs
    have H := (rangeLoop_spec dur ⟨endUtc, tOff⟩ (sortByStart busyRaw)
      excludedDays excludedDates uOff _ ⟨startUtc, tOff⟩).1 s hs2
    exact H.2.2.2.2.2.2.2 b (mem_sortByStart.mpr hb)
  | cons d ds =>
    simp only [suggest_time_slots_core] at hs
    have hs2 := List.take_subset _ _ hs
    obtain ⟨d2, hd2, hmem⟩ := specificSearch_avail_mem hs2
    have H := (specificDateSearch_spec dur (sortByStart busyRaw) uOff tOff
      ⟨startUtc, tOff⟩ d2 rfl).1 s hmem
    exact H.2.2.2.2.2.2 b (mem_sortByStart.mpr hb)

/-- C1: for every search (suggest_time_slots), every slot emitted in the
'available' list overlaps no busy interval in the fetched busy set, where a
slot [t, t+duration) overlaps a busy interval [b_start, b_end) iff
t < b_end and t + duration > b_start. -/
theorem suggest_time_slots_available_no_overlap
    (busyRaw : List (Int × Int)) (dur startUtc endUtc tOff uOff : Int)
    (excludedDays excludedDates specificDates : List Int) (s : CandidateSlot)
    (hs : s ∈ (suggest_time_slots_core busyRaw dur startUtc endUtc tOff uOff
      excludedDays excludedDates specificDates).available)
    (b : Int × Int) (hb : b ∈ busyRaw) :
    ¬(s.targetStart.utc < b.2 ∧ b.1 < s.targetEnd.utc) :=
  core_avail_no_overlap busyRaw dur startUtc endUtc tOff uOff
    excludedDays excludedDates specificDates s hs b hb

/-- C2 (amended): every conflict-possible record cites an overlapping busy
interval of duration strictly under 2 hours, and a slot overlapping a busy
interval of 2 hours or more never appears in 'available'; but such a slot
can still appear in 'conflict_possible' when the first overlapping busy
interval in sorted order is a short one. -/
theorem suggest_time_slots_conflict_policy
    (busyRaw : List (Int × Int)) (dur startUtc endUtc tOff uOff : Int)
    (excludedDays excludedDates specificDates : List Int) :
    (∀ r ∈ (suggest_time_slots_core busyRaw dur startUtc endUtc tOff uOff
        excludedDays excludedDates specificDates).conflictPossible,
      r.conflictWith ∈ busyRaw ∧ r.conflictWith.2 - r.conflictWith.1 < 120 ∧
      r.slot.targetStart.utc < r.conflictWith.2 ∧
      r.conflictWith.1 < r.slot.targetEnd.utc) ∧
    (∀ s ∈ (suggest_time_slots_core busyRaw dur startUtc endUtc tOff uOff
        excludedDays excludedDates specificDates).available,
      ∀ b ∈ busyRaw, 120 ≤ b.2 - b.1 →
        ¬(s.targetStart.utc < b.2 ∧ b.1 < s.targetEnd.utc)) := by
  constructor
  · intro r hr
    cases specificDates with
    | nil =>
      simp only [suggest_time_slots_core] at hr
      have hr2 := List.take_subset _ _ hr
      have H := (rangeLoop_spec dur ⟨endUtc, tOff⟩ (sortByStart busyRaw)
        excludedDays excludedDates uOff _ ⟨startUtc, tOff⟩).2 r hr2
      exact ⟨mem_sortByStart.mp H.2.2.2.2.2.2.2.1, H.2.2.2.2.2.2.2.2⟩
    | cons d ds =>
      simp only [suggest_time_slots_core] at hr
      have hr2 := List.take_subset _ _ hr
      obtain ⟨d2, hd2, hmem⟩ := specificSearch_conf_mem hr2
      have H := (specificDateSearch_spec dur (sortByStart busyRaw) uOff tOff
        ⟨startUtc, tOff⟩ d2 rfl).2 r hmem
      exact ⟨mem_sortByStart.mp H.2.2.2.2.2.2.1, H.2.2.2.2.2.2.2⟩
  · intro s hs b hb _
    exact core_avail_no_overlap busyRaw dur startUtc endUtc
      tOff uOff excludedDays excludedDates specificDates s hs b hb

/-- C3 (amended): in specific-dates mode every emitted slot (available or
conflict-possible) ends at or before 18:00 of its target-zone day, because
the per-date loop rejects and breaks on a slot end past day_end; in window
mode only the slot's start is constrained to [09:00, 18:00) — the end is
never compared to the boundary and may run past 18:00. -/
theorem suggest_time_slots_end_boundary :
    (∀ (busyRaw : List (Int × Int)) (dur startUtc endUtc tOff uOff : Int)
       (excludedDays excludedDates : List Int) (d : Int) (ds : List Int),
      (∀ s ∈ (suggest_time_slots_core busyRaw dur startUtc endUtc tOff uOff
          excludedDays excludedDates (d :: ds)).available,
        s.targetEnd.wall ≤ s.targetStart.day * 1440 + 1080) ∧
      (∀ r ∈ (suggest_time_slots_core busyRaw dur startUtc endUtc tOff uOff
          excludedDays excludedDates (d :: ds)).conflictPossible,
        r.slot.targetEnd.wall ≤ r.slot.targetStart.day * 1440 + 1080)) ∧
    (∀ (busyRaw : List (Int × Int)) (dur startUtc endUtc tOff uOff : Int)
       (excludedDays excludedDates : List Int),
      (∀ s ∈ (suggest_time_slots_core busyRaw dur startUtc endUtc tOff uOff
          excludedDays excludedDates []).available,
        540 ≤ s.targetStart.tod ∧ s.targetStart.tod < 1080) ∧
      (∀ r ∈ (suggest_time_slots_core busyRaw dur startUtc endUtc tOff uOff
          excludedDays excludedDates []).conflictPossible,
        540 ≤ r.slot.targetStart.tod ∧ r.slot.targetStart.tod < 1080)) := by
  constructor
  · intro busyRaw dur startUtc endUtc tOff uOff excludedDays excludedDates d ds
    constructor
    · intro s hs
      simp only [suggest_time_slots_core] at hs
      have hs2 := List.take_subset _ _ hs
      obtain ⟨d2, hd2, hmem⟩ := specificSearch_avail_mem hs2
      have H := (specificDateSearch_spec dur (sortByStart busyRaw) uOff tOff
        ⟨startUtc, tOff⟩ d2 rfl).1 s hmem
      obtain ⟨-, -, hw1, hw2, -, hw3, -⟩ := H
      simp only [DT.day]
      omega
    · intro r hr
      simp only [suggest_time_slots_core] at hr
      have hr2 := List.take_subset _ _ hr
      obtain ⟨d2, hd2, hmem⟩ := specificSearch_conf_mem hr2
      have H := (specificDateSearch_spec dur (sortByStart busyRaw) uOff tOff
        ⟨startUtc, tOff⟩ d2 rfl).2 r hmem
      obtain ⟨-, -, hw1, hw2, -, hw3, -⟩ := H
      simp only [DT.day]
      omega
  · intro busyRaw dur startUtc endUtc tOff uOff excludedDays excludedDates
    constructor
    · intro s hs
      simp only [suggest_time_slots_core] at hs
      have hs2 := List.take_subset _ _ hs
      have H := (rangeLoop_spec dur ⟨endUtc, tOff⟩ (sortByStart busyRaw)
        excludedDays excludedDates uOff _ ⟨startUtc, tOff⟩).1 s hs2
      exact ⟨H.2.1, H.2.2.1⟩
    · intro r hr
      simp only [suggest_time_slots_core] at hr
      have hr2 := List.take_subset _ _ hr
      have H := (rangeLoop_spec dur ⟨endUtc, tOff⟩ (sortByStart busyRaw)
        excludedDays excludedDates uOff _ ⟨startUtc, tOff⟩).2 r hr2
      exact ⟨H.2.1, H.2.2.1⟩

/-- C4 (amended): every emitted slot (in both modes) starts at or after the
search's effective start — the supplied start_date, or 09:00 of the current
wall day in the target zone when start_date is omitted.  That effective
start is not clamped to `now`, so emitted slots can start in the past. -/
theorem suggest_time_slots_start_floor
    (fetch : Int → Int → List (Int × Int)) (dur now : Int)
    (startDate? : Option Int) (daysAhead tOff uOff : Int)
    (excludedDays excludedDates specificDates : List Int) :
    (∀ s ∈ (suggest_time_slots_resolved fetch dur now startDate? daysAhead
        tOff uOff excludedDays excludedDates specificDates).available,
      effectiveStart now tOff startDate? ≤ s.targetStart.utc) ∧
    (∀ r ∈ (suggest_time_slots_resolved fetch dur now startDate? daysAhead
        tOff uOff excludedDays excludedDates specificDates).conflictPossible,
      effectiveStart now tOff startDate? ≤ r.slot.targetStart.utc) := by
  constructor
  · intro s hs
    simp only [suggest_time_slots_resolved] at hs
    cases specificDates with
    | nil =>
      simp only [suggest_time_slots_core] at hs
      have hs2 := List.take_subset _ _ hs
      have H := (rangeLoop_spec dur _ _ excludedDays excludedDates uOff _
        ⟨effectiveStart now tOff startDate?, tOff⟩).1 s hs2
      exact H.1
    | cons d ds =>
      simp only [suggest_time_slots_core] at hs
      have hs2 := List.take_subset _ _ hs
      obtain ⟨d2, hd2, hmem⟩ := specificSearch_avail_mem hs2
      have H := (specificDateSearch_spec dur _ uOff tOff
        ⟨effectiveStart now tOff startDate?, tOff⟩ d2 rfl).1 s hmem
      exact H.2.1
  · intro r hr
    simp only [suggest_time_slots_resolved] at hr
    cases specificDates with
    | nil =>
      simp only [suggest_time_slots_core] at hr
      have hr2 := List.take_subset _ _ hr
      have H := (rangeLoop_spec dur _ _ excludedDays excludedDates uOff _
        ⟨effectiveStart now tOff startDate?, tOff⟩).2 r hr2
      exact H.1
    | cons d ds =>
      simp only [suggest_time_slots_core] at hr
      have hr2 := List.take_subset _ _ hr
      obtain ⟨d2, hd2, hmem⟩ := specificSearch_conf_mem hr2
      have H := (specificDateSearch_spec dur _ uOff tOff
        ⟨effectiveStart now tOff startDate?, tOff⟩ d2 rfl).2 r hmem
      exact H.2.1

/-- C5 (amended): in window mode no emitted slot starts on a weekend, on a
weekday of excluded_days, or on a date of excluded_dates; in specific-dates
mode none of these checks run — any listed date is scanned, weekends and
exclusions included. -/
theorem suggest_time_slots_exclusions_window_mode
    (busyRaw : List (Int × Int)) (dur startUtc endUtc tOff uOff : Int)
    (excludedDays excludedDates : List Int) :
    (∀ s ∈ (suggest_time_slots_core busyRaw dur startUtc endUtc tOff uOff
        excludedDays excludedDates []).available,
      s.targetStart.weekday < 5 ∧ s.targetStart.weekday ∉ excludedDays ∧
      s.targetStart.day ∉ excludedDates) ∧
    (∀ r ∈ (suggest_time_slots_core busyRaw dur startUtc endUtc tOff uOff
        excludedDays excludedDates []).conflictPossible,
      r.slot.targetStart.weekday < 5 ∧ r.slot.targetStart.weekday ∉ excludedDays ∧
      r.slot.targetStart.day ∉ excludedDates) := by
  constructor
  · intro s hs
    simp only [suggest_time_slots_core] at hs
    have hs2 := List.take_subset _ _ hs
    have H := (rangeLoop_spec dur ⟨endUtc, tOff⟩ (sortByStart busyRaw)
      excludedDays excludedDates uOff _ ⟨startUtc, tOff⟩).1 s hs2
    exact ⟨H.2.2.2.1, H.2.2.2.2.1, H.2.2.2.2.2.1⟩
  · intro r hr
    simp only [suggest_time_slots_core] at hr
    have hr2 := List.take_subset _ _ hr
    have H := (rangeLoop_spec dur ⟨endUtc, tOff⟩ (sortByStart busyRaw)
      excludedDays excludedDates uOff _ ⟨startUtc, tOff⟩).2 r hr2
    exact ⟨H.2.2.2.1, H.2.2.2.2.1, H.2.2.2.2.2.1⟩

/-- The prep placement produces exactly one entry per prep task. -/
theorem placePrepTasks_length (fetch : Int → Int → List (Int × Int))
    (prepStart prepEnd : Int) :
    ∀ (tasks : List Int) (cur : Int),
      (placePrepTasks fetch prepStart prepEnd tasks cur).length = tasks.length := by
  intro tasks
  induction tasks with
  | nil => intro cur; simp [placePrepTasks]
  | cons d rest ih =>
    intro cur
    unfold placePrepTasks
    cases find_prep_slot fetch cur prepEnd d with
    | none => simp [ih]
    | some se => simp [ih]

/-- A prep entry without a slot always carries the flexible marker. -/
theorem placePrepTasks_flexible (fetch : Int → Int → List (Int × Int))
    (prepStart prepEnd : Int) :
    ∀ (tasks : List Int) (cur : Int),
      ∀ p ∈ placePrepTasks fetch prepStart prepEnd tasks cur,
        p.slot = none → p.flexibleDay = some (prepStart / 1440) := by
  intro tasks
  induction tasks with
  | nil => intro cur p hp; simp [placePrepTasks] at hp
  | cons d rest ih =>
    intro cur p hp
    unfold placePrepTasks at hp
    cases hfind : find_prep_slot fetch cur prepEnd d with
    | none =>
      rw [hfind] at hp
      rcases List.mem_cons.mp hp with rfl | hp2
      · intro _; rfl
      · exact ih _ p hp2
    | some se =>
      rw [hfind] at hp
      rcases List.mem_cons.mp hp with rfl | hp2
      · intro hnone; simp at hnone
      · exact ih _ p hp2

/-- C6 (amended): suggest_schedule_with_prep emits one suggestion per
primary candidate whether or not the dependent prep tasks could all be
placed: every suggestion carries an entry for every prep task, and an entry
whose slot is missing carries the flexible suggested-time marker instead of
being discarded — partial chains are surfaced, not dropped. -/
theorem suggest_schedule_with_prep_chains
    (fetch : Int → Int → List (Int × Int)) (now evDur totalPrepHours : Int)
    (taskDurs : List Int) (daysAhead : Int) :
    (suggest_schedule_with_prep fetch now evDur totalPrepHours taskDurs
        daysAhead).length
      = (primary_candidates fetch now evDur totalPrepHours daysAhead).length ∧
    ∀ sug ∈ suggest_schedule_with_prep fetch now evDur totalPrepHours taskDurs
        daysAhead,
      sug.prepSlots.length = taskDurs.length ∧
      ∀ p ∈ sug.prepSlots, p.slot = none → p.flexibleDay ≠ none := by
  constructor
  · simp [suggest_schedule_with_prep]
  · intro sug hsug
    simp only [suggest_schedule_with_prep, List.mem_map] at hsug
    obtain ⟨s, hsmem, rfl⟩ := hsug
    constructor
    · simp only [mkChainSuggestion]
      exact placePrepTasks_length _ _ _ _ _
    · intro p hp hnone
      simp only [mkChainSuggestion] at hp
      have := placePrepTasks_flexible _ _ _ _ _ p hp hnone
      rw [this]
      simp

/-- C8 (amended): a busy-interval fetch failure is swallowed, not
propagated — get_events catches the HTTP error, prints it and returns the
empty list, so get_busy_times yields exactly what a confirmed-empty
calendar yields. -/
theorem get_busy_times_failure_empty (msg : String) :
    get_events (Except.error msg) = ([] : List CalEvent) ∧
    get_busy_times (Except.error msg) = get_busy_times (Except.ok []) := by
  exact ⟨rfl, rfl⟩

/-- C9: resolve_timezone always terminates with a valid zone identifier
(given that "UTC" and the alias targets are valid zones): empty or
case-insensitive "UTC" input yields "UTC"; an already-valid identifier is
returned unchanged; a known alias such as "ist" yields its target
"Asia/Kolkata"; a backend reply is validated before acceptance and an
invalid reply, or no backend at all, falls back to "UTC". -/
theorem resolve_timezone_spec (isValid : String → Bool)
    (backend : Option String)
    (hUTC : isValid "UTC" = true)
    (hAlias : ∀ p ∈ tzAliases, isValid p.2 = true) :
    ∀ input : String,
      isValid (resolve_timezone isValid backend input) = true ∧
      (input = "" → resolve_timezone isValid backend input = "UTC") ∧
      (strUpper input = "UTC" → resolve_timezone isValid backend input = "UTC") ∧
      (isValid input = true → input ≠ "" → strUpper input ≠ "UTC" →
        resolve_timezone isValid backend input = input) ∧
      (∀ z, input ≠ "" → strUpper input ≠ "UTC" → isValid input = false →
        tzAliasLookup (strLower input) = some z →
        resolve_timezone isValid backend input = z) ∧
      (input ≠ "" → strUpper input ≠ "UTC" → isValid input = false →
        tzAliasLookup (strLower input) = none → backend = none →
        resolve_timezone isValid backend input = "UTC") := by
  intro input
  refine ⟨?_, ?_, ?_, ?_, ?_, ?_⟩
  · unfold resolve_timezone
    split
    · exact hUTC
    · split
      · assumption
      · split
        · rename_i z hz
          obtain ⟨p, hp, hps⟩ : ∃ p ∈ tzAliases, p.2 = z := by
            unfold tzAliasLookup at hz
            obtain ⟨q, hq1, hq2⟩ := Option.map_eq_some'.mp hz
            exact ⟨q, List.mem_of_find?_eq_some hq1, hq2⟩
          exact hps ▸ hAlias p hp
        · cases backend with
          | none => exact hUTC
          | some r =>
            dsimp only
            split
            · assumption
            · exact hUTC
  · intro h
    unfold resolve_timezone
    rw [if_pos (Or.inl h)]
  · intro h
    unfold resolve_timezone
    rw [if_pos (Or.inr h)]
  · intro hv h1 h2
    unfold resolve_timezone
    rw [if_neg (by simp [h1, h2]), if_pos hv]
  · intro z h1 h2 hv hz
    unfold resolve_timezone
    rw [if_neg (by simp [h1, h2]), if_neg (by simp [hv]), hz]
  · intro h1 h2 hv hz hb
    unfold resolve_timezone
    rw [if_neg (by simp [h1, h2]), if_neg (by simp [hv]), hz, hb]

/-- C10: a suggest_time_slots call whose target-zone or viewer-zone string
is not in the zone database does not fail: the invalid zone degrades to UTC
(offset 0), so the search behaves exactly as if "UTC" had been passed. -/
theorem suggest_time_slots_invalid_zone_utc (zdb : String → Option Int)
    (fetch : Int → Int → List (Int × Int)) (dur now : Int)
    (startDate? : Option Int) (daysAhead : Int) (targetZone viewerZone : String)
    (excludedDays excludedDates specificDates : List Int)
    (h1 : zdb targetZone = none) (h2 : zdb viewerZone = none)
    (h3 : zdb "UTC" = some 0) :
    suggest_time_slots zdb fetch dur now startDate? daysAhead targetZone
        viewerZone excludedDays excludedDates specificDates
      = suggest_time_slots zdb fetch dur now startDate? daysAhead "UTC" "UTC"
        excludedDays excludedDates specificDates := by
  unfold suggest_time_slots
  rw [show zoneOffset zdb targetZone = 0 by simp [zoneOffset, h1],
    show zoneOffset zdb viewerZone = 0 by simp [zoneOffset, h2],
    show zoneOffset zdb "UTC" = 0 by simp [zoneOffset, h3]]

/-- C2 counterexample: with busy intervals (Mon 10:00-10:30, 30 min) and
(Mon 10:30-13:30, 3 h) and a 60-minute search from Monday 09:00, the
candidate slot Mon 10:00-11:00 overlaps the 3-hour interval yet appears in
'conflict_possible', because the first overlap found in sorted order is the
short interval; the claim says such slots appear in neither list. -/
theorem suggest_time_slots_long_overlap_in_conflicts_cex :
    ∃ r ∈ (suggest_time_slots_core [(6360, 6390), (6390, 6570)] 60 6300 7740
      0 0 [] [] []).conflictPossible,
      ∃ b ∈ [((6360 : Int), (6390 : Int)), (6390, 6570)],
        120 ≤ b.2 - b.1 ∧ r.slot.targetStart.utc < b.2 ∧
        b.1 < r.slot.targetEnd.utc := by
  decide

/-- C3 counterexample: a 120-minute window-mode search starting Monday
17:00 with an empty calendar emits the available slot Mon 17:00-19:00,
whose end runs one hour past the 18:00 boundary of its day. -/
theorem suggest_time_slots_past_evening_cex :
    ∃ s ∈ (suggest_time_slots_core [] 120 6780 8220 0 0 [] [] []).available,
      s.targetStart.day * 1440 + 1080 < s.targetEnd.wall := by
  decide

/-- C4 counterexample: with now = Monday 14:00 UTC and start_date omitted,
the default start is Monday 09:00 — five hours in the past — and the first
emitted available slot starts before now. -/
theorem suggest_time_slots_past_slot_cex :
    ∃ s ∈ (suggest_time_slots_resolved (fetchOf []) 60 6600 none 1 0 0
      [] [] []).available,
      s.targetStart.utc < 6600 := by
  decide

/-- C5 counterexample: a specific-dates search listing Saturday 1970-01-10
(day 9), with that very weekday in excluded_days and that very date in
excluded_dates, still emits available slots on that Saturday — the
specific-dates loop runs no weekend or exclusion checks. -/
theorem suggest_time_slots_weekend_specific_cex :
    ∃ s ∈ (suggest_time_slots_core [] 60 6300 20000 0 0 [5] [9] [9]).available,
      s.targetStart.weekday = 5 ∧ s.targetStart.day = 9 ∧
      s.targetStart.weekday ∈ [(5 : Int)] ∧ s.targetStart.day ∈ [(9 : Int)] := by
  decide

/-- C6 counterexample: with one 4-hour prep task and a calendar busy from
Monday 00:00 through Wednesday 09:00, the primary event lands Wednesday
09:00 but no prep slot exists before it; the suggestion is still emitted,
carrying a prep entry with slot = none — a partial chain is surfaced. -/
theorem suggest_schedule_with_prep_partial_chain_cex :
    ∃ sug ∈ suggest_schedule_with_prep (fetchOf [(5760, 9180)]) 6300 30 4
      [240] 1,
      ∃ p ∈ sug.prepSlots, p.slot = none := by
  decide

/-- C7: evaluated at the failing input — now = Wednesday 08:30 UTC, an
empty calendar, a 30-minute event with one 1-hour prep task and no lead
time — the pipeline accepts the prep slot Wed 09:00-10:00 for relation
"before" even though it ends a full hour after (and overlaps) the primary
slot starting Wed 09:00: the dependent slot's end is never compared to the
primary start. -/
theorem find_prep_slot_overruns_primary :
    ∃ sug ∈ suggest_schedule_with_prep (fetchOf []) 9150 30 0 [60] 1,
      ∃ p ∈ sug.prepSlots, ∃ q : Int × Int,
        p.slot = some q ∧ sug.eventStart < q.2 := by
  decide

/-- C8 counterexample: the value get_busy_times produces when the fetch
fails with an HTTP error is literally the value it produces for a
confirmed-empty calendar — the failure is not distinguishable. -/
theorem get_busy_times_failure_cex :
    get_busy_times (Except.error "HttpError") = get_busy_times (Except.ok []) :=
  rfl

/-- C1 witness: the Monday 09:00-10:00 slot emitted by a concrete search
indeed fails the overlap test against the busy interval Mon 10:00-10:30. -/
theorem suggest_time_slots_available_no_overlap_witness :
    ¬((mkSlot ⟨6300, 0⟩ 60 0).targetStart.utc < 6390 ∧
      6360 < (mkSlot ⟨6300, 0⟩ 60 0).targetEnd.utc) :=
  suggest_time_slots_available_no_overlap [(6360, 6390)] 60 6300 7740 0 0
    [] [] [] (mkSlot ⟨6300, 0⟩ 60 0) (by decide) (6360, 6390) (by decide)

/-- C2 witness: the first conflict record of a concrete search cites the
short busy interval Mon 10:00-10:30, whose duration is under two hours and
which overlaps the recorded slot. -/
theorem suggest_time_slots_conflict_policy_witness :
    ((6360, 6390) : Int × Int) ∈ [((6360 : Int), (6390 : Int)), (6390, 6570)] ∧
    ((6360, 6390) : Int × Int).2 - ((6360, 6390) : Int × Int).1 < 120 ∧
    (mkSlot ⟨6330, 0⟩ 60 0).targetStart.utc < ((6360, 6390) : Int × Int).2 ∧
    ((6360, 6390) : Int × Int).1 < (mkSlot ⟨6330, 0⟩ 60 0).targetEnd.utc :=
  (suggest_time_slots_conflict_policy [(6360, 6390), (6390, 6570)] 60 6300
      7740 0 0 [] [] []).1
    ⟨mkSlot ⟨6330, 0⟩ 60 0, (6360, 6390), "Short event - might be movable"⟩
    (by decide)

/-- C3 witness: a slot of a concrete specific-dates search ends at or
before 18:00 of its day. -/
theorem suggest_time_slots_end_boundary_witness :
    (mkSlot ⟨13500, 0⟩ 60 0).targetEnd.wall ≤
      (mkSlot ⟨13500, 0⟩ 60 0).targetStart.day * 1440 + 1080 :=
  (suggest_time_slots_end_boundary.1 [] 60 6300 20000 0 0 [] [] 9 []).1
    (mkSlot ⟨13500, 0⟩ 60 0) (by decide)

/-- C4 witness: the first slot of a concrete default-start search starts at
the effective start (Monday 09:00 for now = Monday 14:00). -/
theorem suggest_time_slots_start_floor_witness :
    effectiveStart 6600 0 none ≤ (mkSlot ⟨6300, 0⟩ 60 0).targetStart.utc :=
  (suggest_time_slots_start_floor (fetchOf []) 60 6600 none 1 0 0 [] [] []).1
    (mkSlot ⟨6300, 0⟩ 60 0) (by decide)

/-- C5 witness: the first slot of a concrete window-mode search lies on a
weekday outside the exclusion lists. -/
theorem suggest_time_slots_exclusions_window_mode_witness :
    (mkSlot ⟨6300, 0⟩ 60 0).targetStart.weekday < 5 ∧
    (mkSlot ⟨6300, 0⟩ 60 0).targetStart.weekday ∉ [(1 : Int)] ∧
    (mkSlot ⟨6300, 0⟩ 60 0).targetStart.day ∉ [(5 : Int)] :=
  (suggest_time_slots_exclusions_window_mode [] 60 6300 7740 0 0 [1] [5]).1
    (mkSlot ⟨6300, 0⟩ 60 0) (by decide)

/-- C6 witness: on a concrete run, one suggestion is emitted per primary
candidate and the first suggestion carries one prep entry for its one prep
task. -/
theorem suggest_schedule_with_prep_chains_witness :
    (suggest_schedule_with_prep (fetchOf []) 9150 30 0 [60] 1).length
      = (primary_candidates (fetchOf []) 9150 30 0 1).length ∧
    (mkChainSuggestion (fetchOf []) 9150 0 [60]
      (mkSlot ⟨9180, 0⟩ 30 0)).prepSlots.length = [(60 : Int)].length := by
  refine ⟨(suggest_schedule_with_prep_chains (fetchOf []) 9150 30 0 [60] 1).1, ?_⟩
  exact ((suggest_schedule_with_prep_chains (fetchOf []) 9150 30 0 [60] 1).2
    (mkChainSuggestion (fetchOf []) 9150 0 [60] (mkSlot ⟨9180, 0⟩ 30 0))
    (by decide)).1

/-- C9 witness: with the concrete validity oracle and no backend, "ist"
resolves to "Asia/Kolkata", which the oracle accepts. -/
theorem resolve_timezone_spec_witness :
    isValidW (resolve_timezone isValidW none "ist") = true ∧
    resolve_timezone isValidW none "ist" = "Asia/Kolkata" := by
  have h := resolve_timezone_spec isValidW none (by decide) (by decide) "ist"
  exact ⟨h.1, h.2.2.2.2.1 "Asia/Kolkata" (by decide) (by decide) (by decide)
    (by decide)⟩

/-- C10 witness: a concrete search given two unknown zone names returns
exactly what the same search given "UTC"/"UTC" returns. -/
theorem suggest_time_slots_invalid_zone_utc_witness :
    suggest_time_slots zdbW (fetchOf []) 60 6600 none 1 "Mars/Olympus"
        "Nowhere" [] [] []
      = suggest_time_slots zdbW (fetchOf []) 60 6600 none 1 "UTC" "UTC"
        [] [] [] :=
  suggest_time_slots_invalid_zone_utc zdbW (fetchOf []) 60 6600 none 1
    "Mars/Olympus" "Nowhere" [] [] [] (by decide) (by decide) (by decide)
